import Mathlib

/-!
Shallow embedding of the StudentManagementSystem repository (python sources under
src/ai_scheduler): the persistence layer (database.py), the tool layer (utils.py),
the orchestrator, scheduler, academic and verifier agents, and the orchestration
graph (ched_backend.py).  Definitions are translated from the source; the theorems
at the end of the file settle the frozen claims C1..C10.
-/

namespace StudentMS

/-- Dynamically typed Python return value: the repository functions return
booleans, ints or strings depending on the branch taken. -/
inductive PyVal where
  | pyBool (b : Bool)
  | pyInt (n : Nat)
  | pyStr (s : String)
  deriving DecidableEq, Repr

/-- models.py ScheduleEvent (pydantic model): payload of a calendar event. -/
structure ScheduleEvent where
  title : String
  start_datetime : String
  end_datetime : String
  priority : String
  category : String
  description : String
  source : String
  deriving DecidableEq, Repr

/-- One row of the user_schedule table (database.py _init_db). -/
structure ScheduleRow where
  id : Nat
  user_id : Nat
  title : String
  start_datetime : String
  end_datetime : String
  priority : String
  category : String
  description : String
  source : String
  deriving DecidableEq, Repr

/-- The user_schedule table: its rows plus the AUTOINCREMENT counter. -/
structure ScheduleTable where
  rows : List ScheduleRow
  nextId : Nat
  deriving DecidableEq, Repr

/-- The idempotency check of DatabaseManager.add_schedule_event: SELECT id FROM
user_schedule WHERE user_id = ? AND title = ? AND start_datetime = ?. -/
def scheduleDuplicate (t : ScheduleTable) (user_id : Nat) (e : ScheduleEvent) : Bool :=
  t.rows.any fun r =>
    r.user_id == user_id && r.title == e.title && r.start_datetime == e.start_datetime

/-- database.py DatabaseManager.add_schedule_event: returns False when a row with
the same (user_id, title, start_datetime) exists, leaving the table untouched;
otherwise inserts the event and returns True.  The fresh rowid is only printed
by the source, never returned. -/
def add_schedule_event (t : ScheduleTable) (e : ScheduleEvent) (user_id : Nat) :
    PyVal × ScheduleTable :=
  if scheduleDuplicate t user_id e then
    (PyVal.pyBool false, t)
  else
    (PyVal.pyBool true,
      { rows := t.rows ++
          [{ id := t.nextId, user_id := user_id, title := e.title,
             start_datetime := e.start_datetime, end_datetime := e.end_datetime,
             priority := e.priority, category := e.category,
             description := e.description, source := e.source }],
        nextId := t.nextId + 1 })

/-- utils.py add_event tool: builds a ScheduleEvent with source "agent", calls
add_schedule_event and maps the boolean to a user visible message. -/
def add_event (t : ScheduleTable) (title start_datetime end_datetime : String)
    (priority category description : String) (user_id : Nat) : String × ScheduleTable :=
  let e : ScheduleEvent :=
    { title := title, start_datetime := start_datetime, end_datetime := end_datetime,
      priority := priority, category := category, description := description,
      source := "agent" }
  let r := add_schedule_event t e user_id
  if r.1 = PyVal.pyBool false then
    ("Skipped: Event " ++ title ++ " at " ++ start_datetime ++
      " is already in the calendar.", r.2)
  else
    ("Successfully added event: " ++ title, r.2)

/-- One row of the chat_history table (database.py _init_db). -/
structure ChatRow where
  id : Nat
  user_id : Nat
  thread_id : String
  role : String
  message : String
  intent : Option String
  deriving DecidableEq, Repr

/-- The CHED database portion touched by delete_chat_thread: the schedule table
and the chat history table. -/
structure ChedDb where
  schedule : ScheduleTable
  chat : List ChatRow
  deriving DecidableEq, Repr

/-- database.py DatabaseManager.delete_chat_thread: DELETE FROM chat_history
WHERE user_id = ? AND thread_id = ?, then DELETE FROM user_schedule WHERE
user_id = ? AND source = ?; returns True (False only when sqlite raises, which
the pure model cannot). -/
def delete_chat_thread (db : ChedDb) (user_id : Nat) (thread_id : String) :
    Bool × ChedDb :=
  (true,
    { schedule :=
        { rows := db.schedule.rows.filter
            (fun r => !(r.user_id == user_id && r.source == thread_id)),
          nextId := db.schedule.nextId },
      chat := db.chat.filter
        (fun r => !(r.user_id == user_id && r.thread_id == thread_id)) })

/-- One row of the join used by get_full_academic_history: SELECT c.code, c.name,
c.credits, c.semester, uc.grade FROM user_courses uc JOIN courses c ... WHERE
uc.user_id = ?.  REAL columns are modelled over the rationals. -/
structure JoinRow where
  code : String
  name : String
  credits : ℚ
  semester : Nat
  grade : Option ℚ
  deriving DecidableEq, Repr

/-- models.py CourseGrade. -/
structure CourseGrade where
  course_code : String
  credits : ℚ
  grade_point : Option ℚ
  letter_grade : Option String
  deriving DecidableEq, Repr

/-- models.py SemesterRecord (the sgpa field is never set by the code path
modelled here). -/
structure SemesterRecord where
  semester_name : String
  courses : List CourseGrade
  deriving DecidableEq, Repr

/-- models.py AcademicHistory. -/
structure AcademicHistory where
  semesters : List SemesterRecord
  cumulative_credits : ℚ
  cgpa : ℚ
  deriving DecidableEq, Repr

/-- Insertion into semesters_dict, preserving python dict insertion order: a new
key is appended at the end, an existing key has the course appended to its list. -/
def semInsert : List (String × List CourseGrade) → String → CourseGrade →
    List (String × List CourseGrade)
  | [], sem, cg => [(sem, [cg])]
  | (k, v) :: rest, sem, cg =>
      if k = sem then (k, v ++ [cg]) :: rest else (k, v) :: semInsert rest sem cg

/-- The CourseGrade built for each joined row (letter_grade is always None). -/
def rowToCourseGrade (r : JoinRow) : CourseGrade :=
  { course_code := r.code, credits := r.credits, grade_point := r.grade,
    letter_grade := none }

/-- The row loop of get_full_academic_history: groups courses by semester and
accumulates total_credits and total_points over rows whose grade is not NULL. -/
def historyLoop : List JoinRow → List (String × List CourseGrade) → ℚ → ℚ →
    List (String × List CourseGrade) × ℚ × ℚ
  | [], sems, tc, tp => (sems, tc, tp)
  | r :: rest, sems, tc, tp =>
      let sems' := semInsert sems ("Semester " ++ toString r.semester) (rowToCourseGrade r)
      match r.grade with
      | some g => historyLoop rest sems' (tc + r.credits) (tp + g * r.credits)
      | none => historyLoop rest sems' tc tp

/-- database.py DatabaseManager.get_full_academic_history, as a function of the
joined rows fetched for the user: cgpa is total_points / total_credits when
total_credits is positive and 0.0 otherwise. -/
def get_full_academic_history (rows : List JoinRow) : AcademicHistory :=
  let res := historyLoop rows [] 0 0
  { semesters := res.1.map (fun p => { semester_name := p.1, courses := p.2 }),
    cumulative_credits := res.2.1,
    cgpa := if res.2.1 > 0 then res.2.2 / res.2.1 else 0 }

/-- The rows carrying a recorded grade point (the spec formula ranges over
exactly these). -/
def gradedRows (rows : List JoinRow) : List JoinRow :=
  rows.filter (fun r => r.grade.isSome)

/-- Spec numerator: sum of grade_point times credits over graded courses. -/
def gpaNumer (rows : List JoinRow) : ℚ :=
  ((gradedRows rows).map (fun r => r.grade.getD 0 * r.credits)).sum

/-- Spec denominator: sum of credits over graded courses. -/
def gpaDenom (rows : List JoinRow) : ℚ :=
  ((gradedRows rows).map (fun r => r.credits)).sum

/-- The concrete course list of claim C4: credits 3 with grade 4.0, credits 4
with grade 3.0, credits 2 ungraded. -/
def exampleRows : List JoinRow :=
  [ { code := "A", name := "A", credits := 3, semester := 1, grade := some 4 },
    { code := "B", name := "B", credits := 4, semester := 1, grade := some 3 },
    { code := "C", name := "C", credits := 2, semester := 1, grade := none } ]

/-- Catalogue entry from data/courses.json (DatabaseManager.get_all_courses). -/
structure CatCourse where
  id : Nat
  name : String
  code : String
  credits : Nat
  deriving DecidableEq, Repr

/-- One row of the courses table (code is NOT NULL UNIQUE, credits and semester
are nullable). -/
structure CourseRow where
  id : Nat
  name : String
  code : String
  credits : Option Nat
  semester : Option Nat
  deriving DecidableEq, Repr

/-- One row of the user_courses table (UNIQUE(user_id, course_id)). -/
structure UCRow where
  id : Nat
  user_id : Nat
  course_id : Nat
  grade : Option ℚ
  status : String
  deriving DecidableEq, Repr

/-- The main dashboard database: courses and user_courses together with their
AUTOINCREMENT counters. -/
structure MainDb where
  courses : List CourseRow
  coursesNextId : Nat
  uc : List UCRow
  ucNextId : Nat
  deriving DecidableEq, Repr

/-- Python truthiness of an optional int (None and 0 are falsy). -/
def truthyNat : Option Nat → Bool
  | none => false
  | some n => n != 0

/-- Python truthiness of an optional string (None and the empty string are
falsy). -/
def truthyStr : Option String → Bool
  | none => false
  | some s => s != ""

/-- Python `a or b` on an optional string slot (used by the catalogue fill). -/
def pyOrStr (a : Option String) (b : String) : Option String :=
  if truthyStr a then a else some b

/-- Python `a or b` on an optional int slot. -/
def pyOrNat (a : Option Nat) (b : Nat) : Option Nat :=
  if truthyNat a then a else some b

/-- Python `credits or 3` collapsed to a value. -/
def pyOrNatVal (a : Option Nat) (b : Nat) : Nat :=
  if truthyNat a then a.getD 0 else b

/-- Lines 198-205 of database.py enroll_in_course: when course_id is truthy and
code or name is missing, fill them from the catalogue entry with that id. -/
def catFill (cat : List CatCourse) (course_id : Option Nat)
    (course_name course_code : Option String) (credits : Option Nat) :
    Option String × Option String × Option Nat :=
  if truthyNat course_id && (!truthyStr course_code || !truthyStr course_name) then
    match cat.find? (fun c => some c.id == course_id) with
    | some m =>
        (pyOrStr course_name m.name, pyOrStr course_code m.code, pyOrNat credits m.credits)
    | none => (course_name, course_code, credits)
  else (course_name, course_code, credits)

/-- Lines 198-214 of database.py enroll_in_course: the optional catalogue fill,
then the fallback lookup of (code, name, credits) by id in the courses table;
none models the `return False # Cant enroll without course info` path. -/
def resolveArgs (cat : List CatCourse) (courses : List CourseRow)
    (course_id : Option Nat) (course_name course_code : Option String)
    (credits : Option Nat) : Option (Option String × String × Option Nat) :=
  if truthyStr (catFill cat course_id course_name course_code credits).2.1 then
    some ((catFill cat course_id course_name course_code credits).1,
      ((catFill cat course_id course_name course_code credits).2.1).getD "",
      (catFill cat course_id course_name course_code credits).2.2)
  else
    match course_id with
    | none => none
    | some cid =>
      match courses.find? (fun r => r.id == cid) with
      | some r => some (some r.name, r.code, r.credits)
      | none => none

/-- UPDATE courses SET name = COALESCE(?, name), credits = COALESCE(?, credits)
WHERE id = ?. -/
def coalesceUpdate (n : Option String) (cr : Option Nat) (dbid : Nat)
    (r : CourseRow) : CourseRow :=
  if r.id == dbid then
    { r with name := n.getD r.name,
             credits := match cr with | some k => some k | none => r.credits }
  else r

/-- Lines 216-231 of database.py enroll_in_course: ensure the course exists in
the registry keyed by code; none models the sqlite NOT NULL violation raised
when the INSERT is reached with course_name = None. -/
def ensureCourse (db : MainDb) (n : Option String) (c : String) (cr : Option Nat) :
    Option (Nat × MainDb) :=
  match db.courses.find? (fun r => r.code == c) with
  | none =>
      match n with
      | none => none
      | some nm =>
          some (db.coursesNextId,
            { db with
                courses := db.courses ++
                  [{ id := db.coursesNextId, name := nm, code := c,
                     credits := some (pyOrNatVal cr 3), semester := some 1 }],
                coursesNextId := db.coursesNextId + 1 })
  | some row =>
      if truthyStr n || truthyNat cr then
        some (row.id, { db with courses := db.courses.map (coalesceUpdate n cr row.id) })
      else
        some (row.id, db)

/-- INSERT INTO user_courses (user_id, course_id, status) VALUES (?, ?, active)
ON CONFLICT(user_id, course_id) DO UPDATE SET status = active. -/
def upsertActive (db : MainDb) (u dbid : Nat) : MainDb :=
  if db.uc.any (fun r => r.user_id == u && r.course_id == dbid) then
    { db with uc := db.uc.map (fun r =>
        if r.user_id == u && r.course_id == dbid then { r with status := "active" } else r) }
  else
    { db with
        uc := db.uc ++ [{ id := db.ucNextId, user_id := u, course_id := dbid,
                          grade := none, status := "active" }],
        ucNextId := db.ucNextId + 1 }

/-- database.py DatabaseManager.enroll_in_course.  The catalogue (courses.json)
is passed as a parameter; the result none models an uncaught sqlite exception,
some (b, db2) the returned boolean and the committed database (the context
manager commits the registry writes even on the early `return False`). -/
def enroll_in_course (db : MainDb) (cat : List CatCourse) (user_id : Nat)
    (course_id : Option Nat) (course_name course_code : Option String)
    (credits : Option Nat) : Option (Bool × MainDb) :=
  match resolveArgs cat db.courses course_id course_name course_code credits with
  | none => some (false, db)
  | some (n, c, cr) =>
    match ensureCourse db n c cr with
    | none => none
    | some (dbid, db1) =>
      match db1.uc.find? (fun r => r.user_id == user_id && r.course_id == dbid) with
      | some r =>
          if r.status == "active" then some (false, db1)
          else some (true, upsertActive db1 user_id dbid)
      | none => some (true, upsertActive db1 user_id dbid)

/-- Number of active enrollment rows for a (user, course) pair. -/
def activeCount (db : MainDb) (u c : Nat) : Nat :=
  db.uc.countP (fun r => r.user_id == u && r.course_id == c && r.status == "active")

/-- Distinctness of course codes (the UNIQUE constraint on courses.code). -/
abbrev codeDistinct (a b : CourseRow) : Prop := a.code ≠ b.code

/-- Distinctness of course ids (the PRIMARY KEY on courses.id). -/
abbrev idDistinct (a b : CourseRow) : Prop := a.id ≠ b.id

/-- Distinctness of (user_id, course_id) pairs (the UNIQUE constraint on
user_courses). -/
abbrev pairDistinct (a b : UCRow) : Prop :=
  ¬(a.user_id = b.user_id ∧ a.course_id = b.course_id)

/-- Well formedness of the main database: fresh AUTOINCREMENT counters, the
UNIQUE code constraint on courses, distinct course ids, and the
UNIQUE(user_id, course_id) constraint on user_courses. -/
def MainDb.wf (db : MainDb) : Prop :=
  (∀ r ∈ db.courses, r.id < db.coursesNextId) ∧
  db.courses.Pairwise codeDistinct ∧
  db.courses.Pairwise idDistinct ∧
  (∀ r ∈ db.uc, r.id < db.ucNextId) ∧
  db.uc.Pairwise pairDistinct

/-- models.py SchedulerOutput as the dict read by the verifier (modified_events
and the advisory lists are opaque strings here). -/
structure SchedOutput where
  proposed_events : List ScheduleEvent
  modified_events : List String
  deleted_event_ids : List String
  scheduling_rationale : String
  conflicts_detected : List String
  optimization_suggestions : List String
  deriving DecidableEq, Repr

/-- models.py VerifierOutput (what a successful structured parse yields). -/
structure VerifierOutput where
  is_valid : Bool
  conflicts : List String
  warnings : List String
  approved_events : List ScheduleEvent
  approved_deletions : List String
  rejected_events : List String
  verification_notes : String
  deriving DecidableEq, Repr

/-- The result dict built by verifier_agent; approved_deletions is optional
because the parse failure branch builds a dict without that key. -/
structure VerifierResult where
  is_valid : Bool
  verification_notes : String
  approved_events : List ScheduleEvent
  approved_deletions : Option (List String)
  conflicts : List String
  warnings : List String
  rejected_events : List String
  deriving DecidableEq, Repr

/-- Outcome of chain.invoke plus parser.parse inside verifier_agent: the call
can raise, or return content that parses or fails to parse. -/
inductive VerifierCall where
  | raised (e : String)
  | parsed (v : VerifierOutput)
  | parseFailed (pe : String)
  deriving DecidableEq, Repr

/-- Lines 87-91 of agents/verifier.py: when is_valid holds, an empty or missing
approved_events or approved_deletions entry is replaced by the originally
proposed one. -/
def postApprove (r : VerifierResult) (proposed : List ScheduleEvent)
    (deletions : List String) : VerifierResult :=
  if r.is_valid then
    let r1 := if r.approved_events.isEmpty then { r with approved_events := proposed } else r
    if (r1.approved_deletions.getD []).isEmpty then
      { r1 with approved_deletions := some deletions }
    else r1
  else r

/-- agents/verifier.py verifier_agent as a function of the scheduler output in
state (none models a falsy or absent dict) and the llm call outcome.  The
function is total: every exception is caught at the agent boundary. -/
def verifier_agent (scheduler_output : Option SchedOutput) (call : VerifierCall) :
    VerifierResult :=
  match scheduler_output with
  | none =>
      { is_valid := false, verification_notes := "No scheduler output to verify",
        approved_events := [], approved_deletions := none,
        conflicts := [], warnings := [], rejected_events := [] }
  | some so =>
    if so.proposed_events.isEmpty && so.deleted_event_ids.isEmpty then
      { is_valid := true, verification_notes := so.scheduling_rationale,
        approved_events := [], approved_deletions := some [],
        conflicts := [], warnings := [], rejected_events := [] }
    else
      match call with
      | VerifierCall.raised e =>
          { is_valid := true,
            verification_notes := "Auto-approved due to error: " ++ e,
            approved_events := so.proposed_events,
            approved_deletions := some so.deleted_event_ids,
            conflicts := [], warnings := [e], rejected_events := [] }
      | VerifierCall.parsed v =>
          postApprove
            { is_valid := v.is_valid, verification_notes := v.verification_notes,
              approved_events := v.approved_events,
              approved_deletions := some v.approved_deletions,
              conflicts := v.conflicts, warnings := v.warnings,
              rejected_events := v.rejected_events }
            so.proposed_events so.deleted_event_ids
      | VerifierCall.parseFailed pe =>
          postApprove
            { is_valid := true,
              verification_notes := "Auto-approved (parser issue: " ++ pe ++ ")",
              approved_events := so.proposed_events,
              approved_deletions := none,
              conflicts := [], warnings := ["Parse warning: " ++ pe],
              rejected_events := [] }
            so.proposed_events so.deleted_event_ids

/-- models.py AgentType. -/
inductive AgentType where
  | rag | scheduler | chat | calendar | academic
  deriving DecidableEq, Repr

/-- models.py OrchestratorOutput (extracted_entities omitted: it is never read
by the routing logic). -/
structure OrchestratorOutput where
  intent : AgentType
  confidence : ℚ
  query_summary : String
  requires_context : Bool
  reasoning : String
  deriving DecidableEq, Repr

/-- What orchestrator_agent returns into state. -/
structure OrchResult where
  output : OrchestratorOutput
  error : Option String
  deriving DecidableEq, Repr

/-- Outcome of the llm call plus structured parse inside orchestrator_agent. -/
inductive OrchCall where
  | raised (e : String)
  | parsed (o : OrchestratorOutput)
  | parseFailed (pe : String)
  deriving DecidableEq, Repr

/-- The message of the NameError raised by the parse failure handler of
agents/orchestrator.py: the handler reads lower_content, a name that is never
bound anywhere in the function. -/
def lowerContentNameError : String :=
  "NameError: name lower_content is not defined"

/-- agents/orchestrator.py orchestrator_agent, lines 66-133.  On a successful
parse the model output is returned unvalidated.  On a parse failure the keyword
fallback block immediately raises NameError (lower_content is unbound), so
control reaches the outer except handler, which returns the hard coded chat
fallback with confidence 0.1; the same handler receives any llm call failure. -/
def orchestrator_agent (user_query : String) (call : OrchCall) : OrchResult :=
  match call with
  | OrchCall.parsed o => { output := o, error := none }
  | OrchCall.parseFailed _ =>
      { output :=
          { intent := AgentType.chat, confidence := 1/10,
            query_summary := user_query, requires_context := false,
            reasoning := "Critical fallback: " ++ lowerContentNameError },
        error := some lowerContentNameError }
  | OrchCall.raised e =>
      { output :=
          { intent := AgentType.chat, confidence := 1/10,
            query_summary := user_query, requires_context := false,
            reasoning := "Critical fallback: " ++ e },
        error := some e }

/-- Whether the first character list begins with the second. -/
def charsStartWith : List Char → List Char → Bool
  | _, [] => true
  | [], _ :: _ => false
  | a :: as, b :: bs => a == b && charsStartWith as bs

/-- Whether needle occurs inside hay (python `k in s`). -/
def charsContain : List Char → List Char → Bool
  | [], needle => needle.isEmpty
  | a :: as, needle => charsStartWith (a :: as) needle || charsContain as needle

/-- Substring test on strings. -/
def strContains (hay needle : String) : Bool :=
  charsContain hay.toList needle.toList

/-- Modelled from the spec: the keyword scored fallback the Router is described
to apply on parse failure (spec section 4.1).  The code contains this block
over the unbound name lower_content, so it never executes; here it is modelled
as a function of the already lowercased raw text, with unmatched text falling
to the chat target.  Returns the detected intent and the requires_context
flag. -/
def keywordFallbackSpec (lower : String) : AgentType × Bool :=
  if ["clear", "delete", "remove", "update", "schedule", "add"].any
      (fun k => strContains lower k) then
    (AgentType.scheduler,
      strContains lower "from" || strContains lower "pdf" || strContains lower "document")
  else if ["rag", "pdf", "document", "timetable", "syllabus"].any
      (fun k => strContains lower k) then
    (AgentType.rag, true)
  else if strContains lower "calendar" || strContains lower "events" then
    (AgentType.calendar, false)
  else
    (AgentType.chat, false)

/-- The agent node set of ched_backend.py, plus the verifier function defined in
agents/verifier.py and the END sentinel. -/
inductive GNode where
  | orchestrator | rag | scheduler | academic | chat | verifier | synthesize | terminal
  deriving DecidableEq, Repr

/-- The nodes registered by build_multi_agent_graph via add_node (ched_backend.py
lines 176-181); verifier_agent is imported at line 17 but never added. -/
def graphNodes : List GNode :=
  [GNode.orchestrator, GNode.rag, GNode.scheduler, GNode.academic, GNode.chat,
   GNode.synthesize]

/-- The edge relation compiled by build_multi_agent_graph: the conditional edge
maps of lines 185-204 and the direct edges of lines 206-209. -/
def graphEdge : GNode → GNode → Bool
  | GNode.orchestrator, GNode.rag => true
  | GNode.orchestrator, GNode.scheduler => true
  | GNode.orchestrator, GNode.academic => true
  | GNode.orchestrator, GNode.chat => true
  | GNode.orchestrator, GNode.synthesize => true
  | GNode.rag, GNode.scheduler => true
  | GNode.rag, GNode.synthesize => true
  | GNode.scheduler, GNode.synthesize => true
  | GNode.academic, GNode.synthesize => true
  | GNode.chat, GNode.synthesize => true
  | GNode.synthesize, GNode.terminal => true
  | _, _ => false

/-- Nonempty walks along graphEdge. -/
def isGraphPath : List GNode → Bool
  | [] => false
  | [_] => true
  | a :: b :: t => graphEdge a b && isGraphPath (b :: t)

/-- ched_backend.py route_after_orchestrator over the intent string and the
requires_context flag. -/
def route_after_orchestrator (intent : String) (requires_context : Bool) : GNode :=
  if intent == "scheduler" && requires_context then GNode.rag
  else if intent == "rag" then GNode.rag
  else if intent == "scheduler" then GNode.scheduler
  else if intent == "calendar" then GNode.synthesize
  else if intent == "academic" then GNode.academic
  else if intent == "chat" then GNode.chat
  else GNode.chat

/-- ched_backend.py route_after_rag. -/
def route_after_rag (intent : String) : GNode :=
  if intent == "scheduler" then GNode.scheduler else GNode.synthesize

/-- A tool call requested by a model response: the tool name and the canonical
serialisation of its arguments (json.dumps with sort_keys=True). -/
structure ToolCall where
  name : String
  args : String
  deriving DecidableEq, Repr

/-- scheduler.py line 112: the dedup key, computed before user_id injection. -/
def actionSignature (tc : ToolCall) : String := tc.name ++ ":" ++ tc.args

/-- The keys of tool_map in scheduler_agent (lines 90-104). -/
def schedulerToolNames : List String :=
  ["get_current_date", "list_calendar_events", "search_calendar", "add_event",
   "delete_calendar_event", "delete_events_on_date", "update_calendar_event",
   "clear_full_calendar", "list_available_courses", "enroll_student_in_course",
   "unenroll_student_from_course", "get_my_enrolled_courses", "retrieve_from_docs"]

/-- The exemption list of scheduler.py line 118: duplicate calls to these tools
are re-executed; every other duplicate is skipped.  get_current_date is not in
this list. -/
def rerunnableToolNames : List String :=
  ["list_calendar_events", "search_calendar", "retrieve_from_docs"]

/-- What happened to one requested tool call inside a scheduler round. -/
inductive ToolEvent where
  | skippedDuplicate (name : String)
  | executed (name : String) (res : String)
  | errored (name : String) (msg : String)
  | notFound (name : String)
  deriving DecidableEq, Repr

/-- The per round for loop of scheduler_agent (lines 109-144): processes the
requested calls in order against the executed_actions set; exec is the tool
environment (ok result, or the message of a raised exception caught by the per
call try).  Returns the events, the grown executed_actions set and the
new_actions_performed flag. -/
def processToolCalls (exec : ToolCall → Except String String) :
    List ToolCall → List String → List ToolEvent × List String × Bool
  | [], executedSet => ([], executedSet, false)
  | tc :: rest, executedSet =>
    let sig := actionSignature tc
    if executedSet.contains sig && !(rerunnableToolNames.contains tc.name) then
      let r := processToolCalls exec rest executedSet
      (ToolEvent.skippedDuplicate tc.name :: r.1, r.2)
    else if schedulerToolNames.contains tc.name then
      match exec tc with
      | Except.ok res =>
          let r := processToolCalls exec rest (sig :: executedSet)
          (ToolEvent.executed tc.name res :: r.1, r.2.1, true)
      | Except.error msg =>
          let r := processToolCalls exec rest executedSet
          (ToolEvent.errored tc.name msg :: r.1, r.2)
    else
      let r := processToolCalls exec rest executedSet
      (ToolEvent.notFound tc.name :: r.1, r.2)

/-- One executed round of the scheduler tool loop. -/
structure SchedRound where
  events : List ToolEvent
  newActions : Bool
  deriving DecidableEq, Repr

/-- The while loop of scheduler_agent (lines 82-161) with the round counter
folded into the fuel: a call with fuel f corresponds to iterations = 6 - f, so
the break guard `iterations > 1` reads 6 - fuel > 1 after the decrement.  The
oracle gives the tool calls requested by the k-th llm response; the loop stops
when a response requests none, when the stall break fires, or when the fuel
(the `iterations < 6` guard) runs out. -/
def schedGo (oracle : Nat → List ToolCall) (exec : ToolCall → Except String String) :
    Nat → Nat → List String → List SchedRound
  | 0, _, _ => []
  | fuel + 1, k, executedSet =>
    let tcs := oracle k
    if tcs.isEmpty then []
    else
      let r := processToolCalls exec tcs executedSet
      let round : SchedRound := { events := r.1, newActions := r.2.2 }
      if !r.2.2 && 6 - fuel > 1 then [round]
      else if r.1.isEmpty then [round]
      else round :: schedGo oracle exec fuel (k + 1) r.2.1

/-- The scheduler tool loop: fuel 6, empty executed_actions set. -/
def schedulerLoop (oracle : Nat → List ToolCall)
    (exec : ToolCall → Except String String) : List SchedRound :=
  schedGo oracle exec 6 0 []

/-- The keys of tool_map in academic_agent (lines 67-74). -/
def academicToolNames : List String :=
  ["get_current_date", "list_available_courses", "enroll_student_in_course",
   "unenroll_student_from_course", "get_my_enrolled_courses", "retrieve_from_docs"]

/-- One round of academic_agent (lines 89-93): names absent from tool_map are
dropped silently; a raising tool aborts the whole agent (there is no per call
try).  Returns the collected ToolMessage contents and the raised message. -/
def acadRoundRun (exec : ToolCall → Except String String) :
    List ToolCall → List (String × String) × Option String
  | [] => ([], none)
  | tc :: rest =>
    if academicToolNames.contains tc.name then
      match exec tc with
      | Except.ok res =>
          let r := acadRoundRun exec rest
          ((tc.name, res) :: r.1, r.2)
      | Except.error e => ([], some e)
    else acadRoundRun exec rest

/-- One executed round of the academic tool loop. -/
structure AcadRound where
  results : List (String × String)
  deriving DecidableEq, Repr

/-- The while loop of academic_agent (lines 77-96): fixed bound of 3, no dedup
set and no stall break; an exception aborts the loop and the agent returns the
error marker instead of an output. -/
def acadGo (oracle : Nat → List ToolCall) (exec : ToolCall → Except String String) :
    Nat → Nat → List AcadRound × Option String
  | 0, _ => ([], none)
  | fuel + 1, k =>
    let tcs := oracle k
    if tcs.isEmpty then ([], none)
    else
      let r := acadRoundRun exec tcs
      match r.2 with
      | some e => ([{ results := r.1 }], some ("Academic execution error: " ++ e))
      | none =>
          let rest := acadGo oracle exec fuel (k + 1)
          ({ results := r.1 } :: rest.1, rest.2)

/-- The academic tool loop: fuel 3. -/
def academicLoop (oracle : Nat → List ToolCall)
    (exec : ToolCall → Except String String) : List AcadRound × Option String :=
  acadGo oracle exec 3 0

/-- Tool environment that answers ok to every call. -/
def okExec : ToolCall → Except String String := fun _ => Except.ok "done"

/-- Oracle that requests the same get_current_date call on every round. -/
def dateOracle : Nat → List ToolCall :=
  fun _ => [{ name := "get_current_date", args := "null" }]

/-- Oracle that requests, on every round, one tool name missing from tool_map. -/
def bogusOracle : Nat → List ToolCall :=
  fun _ => [{ name := "missing_tool", args := "null" }]

/-- Oracle that requests a distinct add_event call on each of the first three
rounds and stops afterwards. -/
def threeAddOracle : Nat → List ToolCall :=
  fun k =>
    if k = 0 then [{ name := "add_event", args := "a" }]
    else if k = 1 then [{ name := "add_event", args := "b" }]
    else if k = 2 then [{ name := "add_event", args := "c" }]
    else []

/-- Sample event used by concrete witnesses. -/
def evA : ScheduleEvent :=
  { title := "Exam", start_datetime := "2026-01-01T09:00:00",
    end_datetime := "2026-01-01T11:00:00", priority := "High",
    category := "General", description := "", source := "agent" }

/-- Empty user_schedule table (sqlite assigns rowid 1 first). -/
def emptySchedule : ScheduleTable := { rows := [], nextId := 1 }

/-- Sample CHED database with two users and two threads. -/
def sampleChedDb : ChedDb :=
  { schedule :=
      { rows :=
          [{ id := 1, user_id := 1, title := "A", start_datetime := "s1",
             end_datetime := "e1", priority := "High", category := "General",
             description := "", source := "t1" },
           { id := 2, user_id := 2, title := "B", start_datetime := "s2",
             end_datetime := "e2", priority := "Low", category := "General",
             description := "", source := "t1" }],
        nextId := 3 },
    chat :=
      [{ id := 1, user_id := 1, thread_id := "t1", role := "user",
         message := "hi", intent := none },
       { id := 2, user_id := 1, thread_id := "t2", role := "user",
         message := "yo", intent := none }] }

/-- Sample scheduler proposal used by the verifier witnesses. -/
def soSample : SchedOutput :=
  { proposed_events := [evA], modified_events := [], deleted_event_ids := ["7"],
    scheduling_rationale := "add the exam", conflicts_detected := [],
    optimization_suggestions := [] }

/-- Sample course catalogue. -/
def sampleCat : List CatCourse :=
  [{ id := 1, name := "Calculus", code := "MA101", credits := 4 }]

/-- Empty main database. -/
def sampleDb0 : MainDb := { courses := [], coursesNextId := 1, uc := [], ucNextId := 1 }

/-- The main database after the first sample enrollment. -/
def sampleDb1 : MainDb :=
  { courses := [{ id := 1, name := "Calculus", code := "MA101",
                  credits := some 4, semester := some 1 }],
    coursesNextId := 2,
    uc := [{ id := 1, user_id := 1, course_id := 1, grade := none, status := "active" }],
    ucNextId := 2 }

/-- A parsed model output that names the calendar target for a deletion query
(the structured parse accepts any member of the enum). -/
def calendarDecision : OrchestratorOutput :=
  { intent := AgentType.calendar, confidence := 9/10,
    query_summary := "delete all my events", requires_context := false,
    reasoning := "model chose the calendar target" }

/-!
## Theorems

Helper lemmas first, then one theorem (plus witness or counterexample) per
claim.
-/

theorem historyLoop_totals (rows : List JoinRow) : ∀ sems tc tp,
    (historyLoop rows sems tc tp).2.1 = tc + gpaDenom rows ∧
    (historyLoop rows sems tc tp).2.2 = tp + gpaNumer rows := by
  induction rows with
  | nil =>
      intro sems tc tp
      simp [historyLoop, gpaDenom, gpaNumer, gradedRows]
  | cons r rest ih =>
      intro sems tc tp
      cases hg : r.grade with
      | some g =>
          have h := ih (semInsert sems ("Semester " ++ toString r.semester)
            (rowToCourseGrade r)) (tc + r.credits) (tp + g * r.credits)
          simp only [historyLoop, hg]
          refine ⟨?_, ?_⟩
          · rw [h.1]
            simp [gpaDenom, gradedRows, List.filter_cons, hg]
            ring
          · rw [h.2]
            simp [gpaNumer, gradedRows, List.filter_cons, hg]
            ring
      | none =>
          have h := ih (semInsert sems ("Semester " ++ toString r.semester)
            (rowToCourseGrade r)) tc tp
          simp only [historyLoop, hg]
          refine ⟨?_, ?_⟩
          · rw [h.1]
            simp [gpaDenom, gradedRows, List.filter_cons, hg]
          · rw [h.2]
            simp [gpaNumer, gradedRows, List.filter_cons, hg]

theorem gpaDenom_nonneg (rows : List JoinRow) (hnn : ∀ r ∈ rows, 0 ≤ r.credits) :
    0 ≤ gpaDenom rows := by
  unfold gpaDenom
  apply List.sum_nonneg
  intro x hx
  rcases List.mem_map.mp hx with ⟨r, hr, rfl⟩
  exact hnn r (List.mem_of_mem_filter hr)

/-- C4: get_full_academic_history computes the cumulative GPA as the sum of
grade_point times credits over exactly the graded courses, divided by the sum
of their credits (courses with a NULL grade contribute to neither sum), and on
the concrete course list of the claim the result is 24/7. -/
theorem c4_gpa_formula (rows : List JoinRow) (hnn : ∀ r ∈ rows, 0 ≤ r.credits) :
    (get_full_academic_history rows).cgpa = gpaNumer rows / gpaDenom rows ∧
    (get_full_academic_history exampleRows).cgpa = 24 / 7 ∧
    (get_full_academic_history exampleRows).cumulative_credits = 7 := by
  refine ⟨?_,
    by norm_num [get_full_academic_history, exampleRows, historyLoop, semInsert,
      rowToCourseGrade],
    by norm_num [get_full_academic_history, exampleRows, historyLoop, semInsert,
      rowToCourseGrade]⟩
  have h := historyLoop_totals rows [] 0 0
  unfold get_full_academic_history
  simp only []
  rw [h.1, h.2, zero_add, zero_add]
  by_cases hpos : gpaDenom rows > 0
  · simp [hpos]
  · have h0 : gpaDenom rows = 0 :=
      le_antisymm (not_lt.mp hpos) (gpaDenom_nonneg rows hnn)
    simp [h0]

/-- C4 witness: the hypothesis of c4_gpa_formula discharged on the concrete
course list of the claim. -/
theorem c4_gpa_formula_witness :
    (get_full_academic_history exampleRows).cgpa =
      gpaNumer exampleRows / gpaDenom exampleRows :=
  (c4_gpa_formula exampleRows (by decide)).1

/-- C6: delete_chat_thread returns True, removes exactly the chat rows of the
given (user, thread) pair and exactly the schedule rows of that user whose
source tag equals the thread id, and preserves the multiplicity of every chat
or schedule row of another user or another thread. -/
theorem c6_delete_chat_thread (db : ChedDb) (u : Nat) (t : String) :
    (delete_chat_thread db u t).1 = true ∧
    (∀ r : ChatRow, r ∈ (delete_chat_thread db u t).2.chat ↔
        r ∈ db.chat ∧ ¬(r.user_id = u ∧ r.thread_id = t)) ∧
    (∀ r : ScheduleRow, r ∈ (delete_chat_thread db u t).2.schedule.rows ↔
        r ∈ db.schedule.rows ∧ ¬(r.user_id = u ∧ r.source = t)) ∧
    (∀ r : ChatRow, ¬(r.user_id = u ∧ r.thread_id = t) →
        (delete_chat_thread db u t).2.chat.count r = db.chat.count r) ∧
    (∀ r : ScheduleRow, ¬(r.user_id = u ∧ r.source = t) →
        (delete_chat_thread db u t).2.schedule.rows.count r = db.schedule.rows.count r) := by
  refine ⟨rfl, ?_, ?_, ?_, ?_⟩
  · intro r
    simp only [delete_chat_thread, List.mem_filter, Bool.not_eq_true',
      Bool.and_eq_false_iff, beq_eq_false_iff_ne, ne_eq]
    tauto
  · intro r
    simp only [delete_chat_thread, List.mem_filter, Bool.not_eq_true',
      Bool.and_eq_false_iff, beq_eq_false_iff_ne, ne_eq]
    tauto
  · intro r hr
    apply List.count_filter
    simp only [Bool.not_eq_true', Bool.and_eq_false_iff, beq_eq_false_iff_ne, ne_eq]
    tauto
  · intro r hr
    apply List.count_filter
    simp only [Bool.not_eq_true', Bool.and_eq_false_iff, beq_eq_false_iff_ne, ne_eq]
    tauto

/-- C6 witness: on the sample database, deleting thread t1 of user 1 keeps the
chat row of thread t2 and the schedule row of user 2 with multiplicity 1. -/
theorem c6_delete_chat_thread_witness :
    (delete_chat_thread sampleChedDb 1 "t1").2.chat.count
        { id := 2, user_id := 1, thread_id := "t2", role := "user",
          message := "yo", intent := none } =
      sampleChedDb.chat.count
        { id := 2, user_id := 1, thread_id := "t2", role := "user",
          message := "yo", intent := none } :=
  (c6_delete_chat_thread sampleChedDb 1 "t1").2.2.2.1 _ (by decide)

/-- C1 amended: when an event with the same (user, title, start timestamp)
already exists, add_schedule_event returns False and leaves the table
unchanged; otherwise it appends the event as a row carrying the fresh
AUTOINCREMENT identifier and returns the boolean True (not the identifier). -/
theorem c1_add_schedule_event (t : ScheduleTable) (e : ScheduleEvent) (u : Nat) :
    ((∃ r ∈ t.rows, r.user_id = u ∧ r.title = e.title ∧
        r.start_datetime = e.start_datetime) →
      add_schedule_event t e u = (PyVal.pyBool false, t)) ∧
    ((∀ r ∈ t.rows, ¬(r.user_id = u ∧ r.title = e.title ∧
        r.start_datetime = e.start_datetime)) →
      (add_schedule_event t e u).1 = PyVal.pyBool true ∧
      (add_schedule_event t e u).2.rows =
        t.rows ++ [{ id := t.nextId, user_id := u, title := e.title,
                     start_datetime := e.start_datetime, end_datetime := e.end_datetime,
                     priority := e.priority, category := e.category,
                     description := e.description, source := e.source }] ∧
      (add_schedule_event t e u).2.nextId = t.nextId + 1) := by
  have hdup : scheduleDuplicate t u e = true ↔
      ∃ r ∈ t.rows, r.user_id = u ∧ r.title = e.title ∧
        r.start_datetime = e.start_datetime := by
    simp [scheduleDuplicate, List.any_eq_true, and_assoc]
  constructor
  · intro h
    rw [add_schedule_event, if_pos (hdup.mpr h)]
  · intro h
    have hfalse : scheduleDuplicate t u e = false := by
      rw [Bool.eq_false_iff]
      intro hc
      rcases hdup.mp hc with ⟨r, hr, h1, h2, h3⟩
      exact h r hr ⟨h1, h2, h3⟩
    rw [add_schedule_event, if_neg (by simp [hfalse])]
    exact ⟨rfl, rfl, rfl⟩

/-- C1 witness: both branches of c1_add_schedule_event discharged on concrete
tables (a fresh insert into the empty table, then a duplicate of it). -/
theorem c1_add_schedule_event_witness :
    add_schedule_event (add_schedule_event emptySchedule evA 1).2 evA 1 =
      (PyVal.pyBool false, (add_schedule_event emptySchedule evA 1).2) ∧
    (add_schedule_event emptySchedule evA 1).1 = PyVal.pyBool true :=
  ⟨(c1_add_schedule_event (add_schedule_event emptySchedule evA 1).2 evA 1).1
      (by decide),
   ((c1_add_schedule_event emptySchedule evA 1).2 (by decide)).1⟩

/-- C1 counterexample: a successful insert into the empty table stores the row
under the fresh identifier 1 but returns the boolean True, which is not the
new identifier the claim promises as return value. -/
theorem c1_counterexample :
    (add_schedule_event emptySchedule evA 1).1 = PyVal.pyBool true ∧
    (∃ r ∈ (add_schedule_event emptySchedule evA 1).2.rows, r.id = 1) ∧
    ((add_schedule_event emptySchedule evA 1).1 == PyVal.pyInt 1) = false := by
  decide

theorem postApprove_fail_open (r : VerifierResult) (proposed : List ScheduleEvent)
    (deletions : List String) (hv : r.is_valid = true)
    (he : r.approved_events = proposed) (hd : r.approved_deletions = none) :
    (postApprove r proposed deletions).is_valid = true ∧
    (postApprove r proposed deletions).approved_events = proposed ∧
    (postApprove r proposed deletions).approved_deletions = some deletions := by
  unfold postApprove
  by_cases hp : r.approved_events.isEmpty
  · have hpe : proposed = [] := he ▸ List.isEmpty_iff.mp hp
    subst hpe
    simp [hv, hp, hd, he]
  · have hne : proposed ≠ [] := by
      rw [← he]
      intro hc
      exact hp (by simp [hc])
    simp [hv, hp, hd, he, hne]

/-- C2: for a present scheduler proposal, a parse failure of the verifier
structured output or a raised verification call yields the fail open result:
is_valid is true, approved_events are exactly the proposed events and
approved_deletions exactly the proposed deletions. -/
theorem c2_verifier_fail_open (so : SchedOutput) (call : VerifierCall)
    (h : (∃ pe, call = VerifierCall.parseFailed pe) ∨
         (∃ e, call = VerifierCall.raised e)) :
    (verifier_agent (some so) call).is_valid = true ∧
    (verifier_agent (some so) call).approved_events = so.proposed_events ∧
    (verifier_agent (some so) call).approved_deletions = some so.deleted_event_ids := by
  by_cases hb : (so.proposed_events.isEmpty && so.deleted_event_ids.isEmpty) = true
  · have h1 : so.proposed_events = [] :=
      List.isEmpty_iff.mp (Bool.and_elim_left hb)
    have h2 : so.deleted_event_ids = [] :=
      List.isEmpty_iff.mp (Bool.and_elim_right hb)
    cases call <;> simp [verifier_agent, h1, h2]
  · rcases h with ⟨pe, rfl⟩ | ⟨e, rfl⟩
    · have := postApprove_fail_open
        { is_valid := true,
          verification_notes := "Auto-approved (parser issue: " ++ pe ++ ")",
          approved_events := so.proposed_events,
          approved_deletions := none,
          conflicts := [], warnings := ["Parse warning: " ++ pe],
          rejected_events := [] }
        so.proposed_events so.deleted_event_ids rfl rfl rfl
      simpa [verifier_agent, hb] using this
    · simp [verifier_agent, hb]

/-- C2 witness: the fail open result on a concrete proposal and a concrete
raised call. -/
theorem c2_verifier_fail_open_witness :
    (verifier_agent (some soSample) (VerifierCall.raised "timeout")).is_valid = true ∧
    (verifier_agent (some soSample) (VerifierCall.raised "timeout")).approved_events =
      soSample.proposed_events ∧
    (verifier_agent (some soSample) (VerifierCall.raised "timeout")).approved_deletions =
      some soSample.deleted_event_ids :=
  c2_verifier_fail_open soSample _ (Or.inr ⟨"timeout", rfl⟩)

/-- C3 counterexample: [scheduler, synthesize] is a path of the compiled graph
from the Schedule-Proposer node straight to the Synthesizer that does not pass
the Verifier; the verifier is not even among the registered nodes. -/
theorem c3_counterexample :
    isGraphPath [GNode.scheduler, GNode.synthesize] = true ∧
    ([GNode.scheduler, GNode.synthesize].contains GNode.verifier) = false ∧
    (graphNodes.contains GNode.verifier) = false := by
  decide

/-- C3 amended: build_multi_agent_graph registers no verifier node, no edge of
the compiled graph touches the verifier, and the only successor of the
scheduler node is the synthesize node, so every scheduling proposal reaches the
Synthesizer without any verification step. -/
theorem c3_scheduler_to_synthesize_unverified :
    (graphNodes.contains GNode.verifier) = false ∧
    (∀ n, graphEdge n GNode.verifier = false) ∧
    (∀ n, graphEdge GNode.verifier n = false) ∧
    (∀ n, graphEdge GNode.scheduler n = (n == GNode.synthesize)) := by
  refine ⟨by decide, ?_, ?_, ?_⟩ <;> intro n <;> cases n <;> rfl

/-- C7: on any structured parse failure the orchestrator does not produce the
keyword scored decision: the fallback block raises NameError on the unbound
name lower_content, so the outer handler returns the hard coded chat fallback
with confidence 0.1 and an error marker; in particular a deletion query, on
which the intended heuristic (keywordFallbackSpec) selects the scheduler
target, is routed to chat. -/
theorem c7_parse_failure_hits_chat_fallback (q : String) (pe : String) :
    (orchestrator_agent q (OrchCall.parseFailed pe)).output.intent = AgentType.chat ∧
    (orchestrator_agent q (OrchCall.parseFailed pe)).output.confidence = 1/10 ∧
    (orchestrator_agent q (OrchCall.parseFailed pe)).error = some lowerContentNameError ∧
    keywordFallbackSpec "delete my 3pm meeting" = (AgentType.scheduler, false) ∧
    ((orchestrator_agent "delete my 3pm meeting"
        (OrchCall.parseFailed pe)).output.intent == AgentType.scheduler) = false :=
  ⟨rfl, rfl, rfl, by decide, rfl⟩

/-- C8 counterexample: a query with an explicit delete instruction whose parsed
model output names the calendar target is routed to the calendar target: the
code applies no enforcement beyond the prompt text. -/
theorem c8_counterexample :
    strContains "delete all my events" "delete" = true ∧
    (orchestrator_agent "delete all my events"
        (OrchCall.parsed calendarDecision)).output.intent = AgentType.calendar :=
  ⟨by decide, rfl⟩

/-- C8 amended: the Router returns the parsed model output unvalidated, so the
rule that deletion queries select the scheduler target lives only in the prompt
text; on a parse failure or a call failure every query (deletion queries
included) is routed to the chat fallback, which is never the calendar target
but is not the scheduler target either. -/
theorem c8_routing_unenforced (q : String) (o : OrchestratorOutput) (pe e : String) :
    (orchestrator_agent q (OrchCall.parsed o)).output = o ∧
    (orchestrator_agent q (OrchCall.parseFailed pe)).output.intent = AgentType.chat ∧
    (orchestrator_agent q (OrchCall.raised e)).output.intent = AgentType.chat :=
  ⟨rfl, rfl, rfl⟩

/-- C9 amended: inside the scheduler round loop a repeated (tool name,
serialized arguments) signature is skipped and reported as already done for
every tool outside the exemption list — get_current_date included, although it
is read only — while a repeated list_calendar_events, search_calendar or
retrieve_from_docs call is executed again. -/
theorem c9_duplicate_handling (exec : ToolCall → Except String String)
    (prev : List String) (tc : ToolCall) (rest : List ToolCall)
    (hdup : prev.contains (actionSignature tc) = true) :
    (rerunnableToolNames.contains tc.name = false →
      (processToolCalls exec (tc :: rest) prev).1.head? =
        some (ToolEvent.skippedDuplicate tc.name)) ∧
    (rerunnableToolNames.contains tc.name = true →
      (processToolCalls exec (tc :: rest) prev).1.head? =
        some (match exec tc with
              | Except.ok res => ToolEvent.executed tc.name res
              | Except.error msg => ToolEvent.errored tc.name msg)) := by
  have hdup' : actionSignature tc ∈ prev := by simpa using hdup
  constructor
  · intro hm
    have hm' : tc.name ∉ rerunnableToolNames := by simpa using hm
    simp [processToolCalls, hdup', hm']
  · intro hm
    have hmem : tc.name ∈ rerunnableToolNames := by
      simpa using hm
    have hs : tc.name ∈ schedulerToolNames := by
      simp only [rerunnableToolNames, List.mem_cons, List.not_mem_nil, or_false] at hmem
      rcases hmem with h | h | h <;> rw [h] <;> decide
    simp [processToolCalls, hdup', hmem, hs]
    cases exec tc <;> simp

/-- C9 witness: a duplicate add_event call is skipped, a duplicate
search_calendar call is executed again. -/
theorem c9_duplicate_handling_witness :
    (processToolCalls okExec [{ name := "add_event", args := "a" }]
        ["add_event:a"]).1.head? =
      some (ToolEvent.skippedDuplicate "add_event") ∧
    (processToolCalls okExec [{ name := "search_calendar", args := "a" }]
        ["search_calendar:a"]).1.head? =
      some (ToolEvent.executed "search_calendar" "done") :=
  ⟨(c9_duplicate_handling okExec ["add_event:a"]
      { name := "add_event", args := "a" } [] (by decide)).1 (by decide),
   (c9_duplicate_handling okExec ["search_calendar:a"]
      { name := "search_calendar", args := "a" } [] (by decide)).2 (by decide)⟩

/-- C9 counterexample: in a full scheduler loop run where the model requests
the identical get_current_date call twice, the second call is skipped as a
duplicate, contradicting the claim that date resolution is always
re-executed. -/
theorem c9_counterexample :
    schedulerLoop dateOracle okExec =
      [{ events := [ToolEvent.executed "get_current_date" "done"], newActions := true },
       { events := [ToolEvent.skippedDuplicate "get_current_date"], newActions := false }] := by
  decide

theorem schedGo_length (oracle : Nat → List ToolCall)
    (exec : ToolCall → Except String String) :
    ∀ fuel k ex, (schedGo oracle exec fuel k ex).length ≤ fuel := by
  intro fuel
  induction fuel with
  | zero => intro k ex; simp [schedGo]
  | succ f ih =>
      intro k ex
      simp only [schedGo]
      by_cases h1 : (oracle k).isEmpty = true
      · simp [h1]
      · rw [if_neg h1]
        by_cases h2 : (!(processToolCalls exec (oracle k) ex).2.2 &&
            decide (6 - f > 1)) = true
        · rw [if_pos h2]; simp
        · rw [if_neg h2]
          by_cases h3 : (processToolCalls exec (oracle k) ex).1.isEmpty = true
          · rw [if_pos h3]; simp
          · rw [if_neg h3]
            simpa using Nat.succ_le_succ (ih (k + 1) _)

theorem acadGo_length (oracle : Nat → List ToolCall)
    (exec : ToolCall → Except String String) :
    ∀ fuel k, (acadGo oracle exec fuel k).1.length ≤ fuel := by
  intro fuel
  induction fuel with
  | zero => intro k; simp [acadGo]
  | succ f ih =>
      intro k
      simp only [acadGo]
      by_cases h1 : (oracle k).isEmpty = true
      · simp [h1]
      · rw [if_neg h1]
        cases h2 : (acadRoundRun exec (oracle k)).2 with
        | some e => simp
        | none => simpa using Nat.succ_le_succ (ih (k + 1))

theorem mem_dropLast_cons {α : Type} {y x : α} {l : List α}
    (h : y ∈ (x :: l).dropLast) : y = x ∨ y ∈ l.dropLast := by
  cases l with
  | nil => simp [List.dropLast] at h
  | cons b t =>
      rw [List.dropLast_cons₂, List.mem_cons] at h
      exact h

theorem schedGo_no_stall (oracle : Nat → List ToolCall)
    (exec : ToolCall → Except String String) :
    ∀ fuel, fuel ≤ 5 → ∀ k ex,
      ∀ r ∈ (schedGo oracle exec fuel k ex).dropLast, r.newActions = true := by
  intro fuel
  induction fuel with
  | zero => intro _ k ex r hr; simp [schedGo] at hr
  | succ f ih =>
      intro hf k ex r hr
      simp only [schedGo] at hr
      by_cases h1 : (oracle k).isEmpty = true
      · rw [if_pos h1] at hr; simp at hr
      · rw [if_neg h1] at hr
        by_cases hna : (processToolCalls exec (oracle k) ex).2.2 = true
        · rw [if_neg (by simp [hna])] at hr
          by_cases h3 : (processToolCalls exec (oracle k) ex).1.isEmpty = true
          · rw [if_pos h3] at hr; simp at hr
          · rw [if_neg h3] at hr
            rcases mem_dropLast_cons hr with h | h
            · rw [h]; exact hna
            · exact ih (by omega) (k + 1) _ r h
        · have hbreak : (6 - f > 1) := by omega
          rw [if_pos (by simp [hna, hbreak])] at hr
          simp at hr

/-- C10 amended: for every model behaviour and tool environment the scheduler
loop runs at most 6 rounds and the academic loop at most 3; in the scheduler
loop every round after the first that performs zero new actions is the last
round (the first round has no such break, and the academic loop none at
all). -/
theorem c10_loop_bounds (oracle : Nat → List ToolCall)
    (exec : ToolCall → Except String String) :
    (schedulerLoop oracle exec).length ≤ 6 ∧
    (academicLoop oracle exec).1.length ≤ 3 ∧
    (∀ r ∈ ((schedulerLoop oracle exec).drop 1).dropLast, r.newActions = true) := by
  refine ⟨schedGo_length oracle exec 6 0 [], acadGo_length oracle exec 3 0, ?_⟩
  intro r hr
  simp only [schedulerLoop, schedGo] at hr
  by_cases h1 : (oracle 0).isEmpty = true
  · rw [if_pos h1] at hr; simp at hr
  · rw [if_neg h1] at hr
    rw [if_neg (by simp)] at hr
    by_cases h3 : (processToolCalls exec (oracle 0) []).1.isEmpty = true
    · rw [if_pos h3] at hr; simp at hr
    · rw [if_neg h3] at hr
      rw [List.drop_succ_cons, List.drop_zero] at hr
      exact schedGo_no_stall oracle exec 5 (by omega) 1 _ r hr

/-- C10 witness: a three round trace in which the middle round (a non final
round past the first) indeed performed new actions, plus both bounds. -/
theorem c10_loop_bounds_witness :
    (schedulerLoop threeAddOracle okExec).length ≤ 6 ∧
    (academicLoop threeAddOracle okExec).1.length ≤ 3 ∧
    ({ events := [ToolEvent.executed "add_event" "done"], newActions := true } :
        SchedRound).newActions = true :=
  ⟨(c10_loop_bounds threeAddOracle okExec).1,
   (c10_loop_bounds threeAddOracle okExec).2.1,
   (c10_loop_bounds threeAddOracle okExec).2.2 _ (by decide)⟩

/-- C10 counterexample: with a model that keeps requesting a tool name missing
from tool_map, the academic loop runs all 3 rounds although every round
performs zero actions, and the scheduler loop still runs a second round after
its zero action first round: neither loop terminates immediately on a stalled
round, as the claim states. -/
theorem c10_counterexample :
    (academicLoop bogusOracle okExec).1 =
      [{ results := [] }, { results := [] }, { results := [] }] ∧
    (academicLoop bogusOracle okExec).2 = none ∧
    (schedulerLoop bogusOracle okExec).length = 2 := by
  refine ⟨rfl, rfl, rfl⟩

theorem countP_le_one_of_pairwise {α : Type} {R : α → α → Prop} (l : List α)
    (p : α → Bool) (hp : l.Pairwise R)
    (h : ∀ a b, p a = true → p b = true → ¬ R a b) :
    l.countP p ≤ 1 := by
  induction l with
  | nil => simp
  | cons a t ih =>
      rcases List.pairwise_cons.mp hp with ⟨ha, ht⟩
      rw [List.countP_cons]
      by_cases hpa : p a = true
      · have h0 : t.countP p = 0 := by
          rw [List.countP_eq_zero]
          intro b hb hpb
          exact h a b hpa hpb (ha b hb)
        simp [h0, hpa]
      · have hpa' : p a = false := by revert hpa; cases p a <;> simp
        simpa [hpa'] using ih ht

theorem find?_map_eq {α : Type} (f : α → α) (p : α → Bool)
    (hf : ∀ r, p (f r) = p r) (l : List α) :
    (l.map f).find? p = (l.find? p).map f := by
  induction l with
  | nil => rfl
  | cons a t ih =>
      simp only [List.map_cons, List.find?_cons, hf a]
      cases hpa : p a <;> simp [ih]

theorem countP_map_eq {α : Type} (f : α → α) (p q : α → Bool)
    (hf : ∀ r, p (f r) = q r) (l : List α) :
    (l.map f).countP p = l.countP q := by
  induction l with
  | nil => rfl
  | cons a t ih => simp only [List.map_cons, List.countP_cons, ih, hf]

theorem find?_append_of_none {α : Type} (l1 l2 : List α) (p : α → Bool)
    (h : l1.find? p = none) : (l1 ++ l2).find? p = l2.find? p := by
  rw [List.find?_append, h, Option.none_or]

theorem find?_eq_self_of_pairwise_key {α β : Type} [DecidableEq β] (key : α → β)
    (l : List α) (hp : l.Pairwise (fun a b => key a ≠ key b)) (T : α) (hT : T ∈ l) :
    l.find? (fun r => key r == key T) = some T := by
  cases h : l.find? (fun r => key r == key T) with
  | none =>
      rw [List.find?_eq_none] at h
      exact absurd (by simp) (h T hT)
  | some S =>
      have hpS := List.find?_some h
      have hSmem := List.mem_of_find?_eq_some h
      have hsymm : Symmetric (fun a b : α => key a ≠ key b) :=
        fun a b hab e => hab e.symm
      have hST : S = T := by
        by_contra hne
        exact hp.forall hsymm hSmem hT hne (by simpa using hpS)
      rw [hST]

theorem coalesceUpdate_code (n : Option String) (cr : Option Nat) (dbid : Nat)
    (r : CourseRow) : (coalesceUpdate n cr dbid r).code = r.code := by
  unfold coalesceUpdate
  split <;> rfl

theorem coalesceUpdate_id (n : Option String) (cr : Option Nat) (dbid : Nat)
    (r : CourseRow) : (coalesceUpdate n cr dbid r).id = r.id := by
  unfold coalesceUpdate
  split <;> rfl

theorem ensure_self (db : MainDb) (T : CourseRow) (hT : T ∈ db.courses)
    (hpc : db.courses.Pairwise codeDistinct) (hpi : db.courses.Pairwise idDistinct) :
    ensureCourse db (some T.name) T.code T.credits = some (T.id, db) := by
  have hfind : db.courses.find? (fun r => r.code == T.code) = some T :=
    find?_eq_self_of_pairwise_key CourseRow.code db.courses hpc T hT
  unfold ensureCourse
  rw [hfind]
  dsimp only
  by_cases hcond : (truthyStr (some T.name) || truthyNat T.credits) = true
  · rw [if_pos hcond]
    have hsymm : Symmetric idDistinct := fun a b hab e => hab e.symm
    have hpt : ∀ r ∈ db.courses,
        coalesceUpdate (some T.name) T.credits T.id r = r := by
      intro r hr
      by_cases hid : (r.id == T.id) = true
      · have hrT : r = T := by
          by_contra hne
          exact hpi.forall hsymm hr hT hne (by simpa using hid)
        subst hrT
        unfold coalesceUpdate
        rw [if_pos hid]
        obtain ⟨rid, rname, rcode, rcredits, rsem⟩ := r
        cases rcredits <;> rfl
      · unfold coalesceUpdate
        rw [if_neg hid]
    rw [List.map_congr_left hpt]
    simp
  · rw [if_neg hcond]

theorem ensure_again (db : MainDb) (n : Option String) (c : String)
    (cr : Option Nat) (d : Nat) (row : CourseRow)
    (hf : db.courses.find? (fun r => r.code == c) = some row) (hid : row.id = d) :
    ∃ db2, ensureCourse db n c cr = some (d, db2) ∧
      db2.uc = db.uc ∧ db2.ucNextId = db.ucNextId := by
  unfold ensureCourse
  rw [hf]
  dsimp only
  by_cases hcond : (truthyStr n || truthyNat cr) = true
  · rw [if_pos hcond, hid]
    exact ⟨_, rfl, rfl, rfl⟩
  · rw [if_neg hcond, hid]
    exact ⟨db, rfl, rfl, rfl⟩

theorem ensureCourse_facts (db : MainDb) (n : Option String) (c : String)
    (cr : Option Nat) (d : Nat) (db1 : MainDb)
    (hb : ∀ r ∈ db.courses, r.id < db.coursesNextId)
    (hpc : db.courses.Pairwise codeDistinct)
    (hpi : db.courses.Pairwise idDistinct)
    (h : ensureCourse db n c cr = some (d, db1)) :
    db1.uc = db.uc ∧ db1.ucNextId = db.ucNextId ∧
    (∀ r ∈ db1.courses, r.id < db1.coursesNextId) ∧
    db1.courses.Pairwise codeDistinct ∧
    db1.courses.Pairwise idDistinct ∧
    (∃ row, db1.courses.find? (fun r => r.code == c) = some row ∧ row.id = d) := by
  unfold ensureCourse at h
  cases hfind : db.courses.find? (fun r => r.code == c) with
  | none =>
      rw [hfind] at h
      dsimp only at h
      cases n with
      | none => exact absurd h (by simp)
      | some nm =>
          simp only [Option.some.injEq, Prod.mk.injEq] at h
          obtain ⟨hd, hdb⟩ := h
          subst hdb
          have hnot : ∀ r ∈ db.courses, ¬(r.code == c) = true :=
            List.find?_eq_none.mp hfind
          refine ⟨rfl, rfl, ?_, ?_, ?_, ?_⟩
          · intro r hr
            rcases List.mem_append.mp hr with hr | hr
            · exact Nat.lt_succ_of_lt (hb r hr)
            · rcases List.mem_singleton.mp hr with rfl
              exact Nat.lt_succ_self _
          · rw [List.pairwise_append]
            refine ⟨hpc, List.pairwise_singleton _ _, ?_⟩
            intro a ha b hbm
            rcases List.mem_singleton.mp hbm with rfl
            intro he
            exact hnot a ha (by simp [he])
          · rw [List.pairwise_append]
            refine ⟨hpi, List.pairwise_singleton _ _, ?_⟩
            intro a ha b hbm
            rcases List.mem_singleton.mp hbm with rfl
            intro he
            exact absurd (he ▸ hb a ha) (by simp)
          · refine ⟨CourseRow.mk db.coursesNextId nm c (some (pyOrNatVal cr 3))
                (some 1), ?_, hd⟩
            rw [find?_append_of_none _ _ _ hfind]
            simp [List.find?_cons]
  | some row =>
      rw [hfind] at h
      dsimp only at h
      by_cases hcond : (truthyStr n || truthyNat cr) = true
      · rw [if_pos hcond] at h
        simp only [Option.some.injEq, Prod.mk.injEq] at h
        obtain ⟨hd, hdb⟩ := h
        subst hdb
        have hcode : ∀ r, ((coalesceUpdate n cr row.id r).code == c) =
            (r.code == c) := by
          intro r
          rw [coalesceUpdate_code]
        refine ⟨rfl, rfl, ?_, ?_, ?_, ?_⟩
        · intro r hr
          rcases List.mem_map.mp hr with ⟨s, hs, rfl⟩
          rw [coalesceUpdate_id]
          exact hb s hs
        · rw [List.pairwise_map]
          exact hpc.imp (fun {a b} hab => by
            show (coalesceUpdate n cr row.id a).code ≠ (coalesceUpdate n cr row.id b).code
            rw [coalesceUpdate_code, coalesceUpdate_code]
            exact hab)
        · rw [List.pairwise_map]
          exact hpi.imp (fun {a b} hab => by
            show (coalesceUpdate n cr row.id a).id ≠ (coalesceUpdate n cr row.id b).id
            rw [coalesceUpdate_id, coalesceUpdate_id]
            exact hab)
        · refine ⟨coalesceUpdate n cr row.id row, ?_, ?_⟩
          · rw [find?_map_eq _ _ hcode, hfind]
            rfl
          · rw [coalesceUpdate_id]
            exact hd
      · rw [if_neg hcond] at h
        simp only [Option.some.injEq, Prod.mk.injEq] at h
        obtain ⟨hd, hdb⟩ := h
        subst hdb
        exact ⟨rfl, rfl, hb, hpc, hpi, row, hfind, hd⟩

theorem activeCount_le_one (db : MainDb) (hpw : db.uc.Pairwise pairDistinct)
    (u c : Nat) : activeCount db u c ≤ 1 := by
  unfold activeCount
  refine countP_le_one_of_pairwise db.uc _ hpw ?_
  intro a b ha hbm hR
  simp only [Bool.and_eq_true, beq_iff_eq] at ha hbm
  exact hR ⟨ha.1.1.trans hbm.1.1.symm, ha.1.2.trans hbm.1.2.symm⟩

theorem upsertActive_facts (db : MainDb) (u d : Nat)
    (hpw : db.uc.Pairwise pairDistinct) :
    (upsertActive db u d).courses = db.courses ∧
    (upsertActive db u d).coursesNextId = db.coursesNextId ∧
    (upsertActive db u d).uc.Pairwise pairDistinct ∧
    activeCount (upsertActive db u d) u d = 1 ∧
    (∃ r, (upsertActive db u d).uc.find?
        (fun x => x.user_id == u && x.course_id == d) = some r ∧
        r.status = "active") ∧
    ((∀ r ∈ db.uc, r.id < db.ucNextId) →
      ∀ r ∈ (upsertActive db u d).uc, r.id < (upsertActive db u d).ucNextId) := by
  unfold upsertActive
  by_cases hany : (db.uc.any (fun r => r.user_id == u && r.course_id == d)) = true
  · rw [if_pos hany]
    have hpres : ∀ r : UCRow,
        ((if r.user_id == u && r.course_id == d then
            { r with status := "active" } else r).user_id,
         (if r.user_id == u && r.course_id == d then
            { r with status := "active" } else r).id,
         (if r.user_id == u && r.course_id == d then
            { r with status := "active" } else r).course_id) =
        (r.user_id, r.id, r.course_id) := by
      intro r
      split <;> rfl
    have hpairP : ∀ r : UCRow,
        ((if r.user_id == u && r.course_id == d then
            { r with status := "active" } else r).user_id == u &&
         (if r.user_id == u && r.course_id == d then
            { r with status := "active" } else r).course_id == d) =
        (r.user_id == u && r.course_id == d) := by
      intro r
      split <;> rfl
    have hactiveP : ∀ r : UCRow,
        ((if r.user_id == u && r.course_id == d then
            { r with status := "active" } else r).user_id == u &&
         (if r.user_id == u && r.course_id == d then
            { r with status := "active" } else r).course_id == d &&
         (if r.user_id == u && r.course_id == d then
            { r with status := "active" } else r).status == "active") =
        (r.user_id == u && r.course_id == d) := by
      intro r
      by_cases hr : (r.user_id == u && r.course_id == d) = true
      · rw [if_pos hr]
        simp only [Bool.and_eq_true] at hr
        simp [hr.1, hr.2]
      · have hr' : (r.user_id == u && r.course_id == d) = false := by
          revert hr; cases (r.user_id == u && r.course_id == d) <;> simp
        rw [if_neg hr, hr']
        simp only [Bool.and_eq_true] at hr' ⊢
        rcases Bool.and_eq_false_iff.mp hr' with hx | hx <;> simp [hx]
    obtain ⟨a0, ha0mem, ha0p⟩ := List.any_eq_true.mp hany
    refine ⟨rfl, rfl, ?_, ?_, ?_, ?_⟩
    · rw [List.pairwise_map]
      refine hpw.imp (fun {a b} hab => ?_)
      intro hcontra
      apply hab
      have ha := congrArg (fun t : Nat × Nat × Nat => t.1) (hpres a)
      have hb := congrArg (fun t : Nat × Nat × Nat => t.2.2) (hpres a)
      have hc := congrArg (fun t : Nat × Nat × Nat => t.1) (hpres b)
      have hd2 := congrArg (fun t : Nat × Nat × Nat => t.2.2) (hpres b)
      simp only at ha hb hc hd2
      exact ⟨ha ▸ hc ▸ hcontra.1, hb ▸ hd2 ▸ hcontra.2⟩
    · unfold activeCount
      rw [countP_map_eq _ _ _ hactiveP]
      refine le_antisymm ?_ ?_
      · refine countP_le_one_of_pairwise db.uc _ hpw ?_
        intro a b ha hbm hR
        simp only [Bool.and_eq_true, beq_iff_eq] at ha hbm
        exact hR ⟨ha.1.trans hbm.1.symm, ha.2.trans hbm.2.symm⟩
      · exact List.countP_pos_iff.mpr ⟨a0, ha0mem, ha0p⟩
    · rw [find?_map_eq _ _ hpairP]
      cases hf : db.uc.find? (fun x => x.user_id == u && x.course_id == d) with
      | none =>
          rw [List.find?_eq_none] at hf
          exact absurd ha0p (hf a0 ha0mem)
      | some r0 =>
          have hp0 := List.find?_some hf
          refine ⟨_, rfl, ?_⟩
          dsimp only
          rw [if_pos hp0]
    · intro hub r hr
      rcases List.mem_map.mp hr with ⟨s, hs, rfl⟩
      have := congrArg (fun t : Nat × Nat × Nat => t.2.1) (hpres s)
      simp only at this
      rw [this]
      exact hub s hs
  · rw [if_neg hany]
    have hnone : ∀ a ∈ db.uc, ¬(a.user_id == u && a.course_id == d) = true := by
      intro a ha hp
      exact hany (List.any_eq_true.mpr ⟨a, ha, hp⟩)
    refine ⟨rfl, rfl, ?_, ?_, ?_, ?_⟩
    · rw [List.pairwise_append]
      refine ⟨hpw, List.pairwise_singleton _ _, ?_⟩
      intro a ha b hbm
      rcases List.mem_singleton.mp hbm with rfl
      intro hcontra
      exact hnone a ha (by simp [hcontra.1, hcontra.2])
    · unfold activeCount
      rw [List.countP_append]
      have h0 : db.uc.countP
          (fun r => r.user_id == u && r.course_id == d && r.status == "active") = 0 := by
        rw [List.countP_eq_zero]
        intro a ha hp
        simp only [Bool.and_eq_true] at hp
        exact hnone a ha (by simp [hp.1.1, hp.1.2])
      simp [h0, List.countP_cons]
    · have hn : db.uc.find? (fun x => x.user_id == u && x.course_id == d) = none := by
        rw [List.find?_eq_none]
        exact hnone
      rw [find?_append_of_none _ _ _ hn]
      refine ⟨UCRow.mk db.ucNextId u d none "active", ?_, rfl⟩
      simp [List.find?_cons]
    · intro hub r hr
      rcases List.mem_append.mp hr with hr | hr
      · exact Nat.lt_succ_of_lt (hub r hr)
      · rcases List.mem_singleton.mp hr with rfl
        exact Nat.lt_succ_self _

theorem resolve_stable (cat : List CatCourse) (db dbE : MainDb)
    (cid : Option Nat) (cn cc : Option String) (cr : Option Nat)
    (n : Option String) (c : String) (cr2 : Option Nat) (d : Nat)
    (hpc : db.courses.Pairwise codeDistinct) (hpi : db.courses.Pairwise idDistinct)
    (hres : resolveArgs cat db.courses cid cn cc cr = some (n, c, cr2))
    (hens : ensureCourse db n c cr2 = some (d, dbE)) :
    ∃ n2 cr3, resolveArgs cat dbE.courses cid cn cc cr = some (n2, c, cr3) := by
  by_cases ht : truthyStr (catFill cat cid cn cc cr).2.1 = true
  · refine ⟨n, cr2, ?_⟩
    unfold resolveArgs at hres ⊢
    rw [if_pos ht] at hres ⊢
    exact hres
  · unfold resolveArgs at hres
    rw [if_neg ht] at hres
    cases cid with
    | none => simp at hres
    | some cidv =>
        dsimp only at hres
        cases hT : db.courses.find? (fun r => r.id == cidv) with
        | none =>
            rw [hT] at hres
            simp at hres
        | some T =>
            rw [hT] at hres
            dsimp only at hres
            simp only [Option.some.injEq, Prod.mk.injEq] at hres
            obtain ⟨hn, hc, hcr⟩ := hres
            have hTmem := List.mem_of_find?_eq_some hT
            have hself := ensure_self db T hTmem hpc hpi
            rw [hn, hc, hcr] at hself
            rw [hself] at hens
            simp only [Option.some.injEq, Prod.mk.injEq] at hens
            obtain ⟨hd, hdb⟩ := hens
            subst hdb
            refine ⟨some T.name, T.credits, ?_⟩
            unfold resolveArgs
            rw [if_neg ht]
            dsimp only
            rw [hT]
            dsimp only
            rw [hc]

/-- C5: under the database invariants (fresh counters, UNIQUE course codes,
distinct course ids, UNIQUE (user_id, course_id) pairs) every enroll_in_course
call that returns preserves the invariants — hence at most one active
enrollment row per (user, course) pair — and a call that returns success
leaves exactly one active row for the enrolled pair, while the identical
second call returns failure and leaves that active count at exactly 1. -/
theorem c5_enroll (db : MainDb) (cat : List CatCourse) (u : Nat)
    (cid : Option Nat) (cn cc : Option String) (cr : Option Nat)
    (hwf : db.wf) :
    (∀ b db1, enroll_in_course db cat u cid cn cc cr = some (b, db1) →
      db1.wf ∧ ∀ u2 c2, activeCount db1 u2 c2 ≤ 1) ∧
    (∀ db1, enroll_in_course db cat u cid cn cc cr = some (true, db1) →
      ∃ dc, activeCount db1 u dc = 1 ∧
        ∃ db2, enroll_in_course db1 cat u cid cn cc cr = some (false, db2) ∧
          activeCount db2 u dc = 1) := by
  obtain ⟨hb, hpc, hpi, hub, hpw⟩ := hwf
  constructor
  · intro b db1 h
    unfold enroll_in_course at h
    cases hres : resolveArgs cat db.courses cid cn cc cr with
    | none =>
        rw [hres] at h
        dsimp only at h
        simp only [Option.some.injEq, Prod.mk.injEq] at h
        obtain ⟨hb1, hdb1⟩ := h
        subst hdb1
        exact ⟨⟨hb, hpc, hpi, hub, hpw⟩, activeCount_le_one db hpw⟩
    | some ncc =>
        obtain ⟨n, c, cr2⟩ := ncc
        rw [hres] at h
        dsimp only at h
        cases hens : ensureCourse db n c cr2 with
        | none =>
            rw [hens] at h
            simp at h
        | some dd =>
            obtain ⟨d, dbE⟩ := dd
            rw [hens] at h
            dsimp only at h
            obtain ⟨hEuc, hEucN, hEids, hEpc, hEpi, row, hErow, hErid⟩ :=
              ensureCourse_facts db n c cr2 d dbE hb hpc hpi hens
            have hpwE : dbE.uc.Pairwise pairDistinct := by rw [hEuc]; exact hpw
            have hubE : ∀ r ∈ dbE.uc, r.id < dbE.ucNextId := by
              rw [hEuc, hEucN]; exact hub
            have hwfE : dbE.wf := ⟨hEids, hEpc, hEpi, hubE, hpwE⟩
            obtain ⟨hUc, hUcN, hUpw, hUcount, hUfind, hUids⟩ :=
              upsertActive_facts dbE u d hpwE
            have hwfU : (upsertActive dbE u d).wf := by
              refine ⟨?_, ?_, ?_, hUids hubE, hUpw⟩
              · rw [hUc, hUcN]; exact hEids
              · rw [hUc]; exact hEpc
              · rw [hUc]; exact hEpi
            cases hfind : dbE.uc.find? (fun r => r.user_id == u && r.course_id == d) with
            | some r0 =>
                rw [hfind] at h
                dsimp only at h
                by_cases hst : (r0.status == "active") = true
                · rw [if_pos hst] at h
                  simp only [Option.some.injEq, Prod.mk.injEq] at h
                  obtain ⟨hb1, hdb1⟩ := h
                  subst hdb1
                  exact ⟨hwfE, activeCount_le_one dbE hpwE⟩
                · rw [if_neg hst] at h
                  simp only [Option.some.injEq, Prod.mk.injEq] at h
                  obtain ⟨hb1, hdb1⟩ := h
                  subst hdb1
                  exact ⟨hwfU, activeCount_le_one _ hUpw⟩
            | none =>
                rw [hfind] at h
                dsimp only at h
                simp only [Option.some.injEq, Prod.mk.injEq] at h
                obtain ⟨hb1, hdb1⟩ := h
                subst hdb1
                exact ⟨hwfU, activeCount_le_one _ hUpw⟩
  · intro db1 h
    unfold enroll_in_course at h
    cases hres : resolveArgs cat db.courses cid cn cc cr with
    | none =>
        rw [hres] at h
        dsimp only at h
        simp at h
    | some ncc =>
        obtain ⟨n, c, cr2⟩ := ncc
        rw [hres] at h
        dsimp only at h
        cases hens : ensureCourse db n c cr2 with
        | none =>
            rw [hens] at h
            simp at h
        | some dd =>
            obtain ⟨d, dbE⟩ := dd
            rw [hens] at h
            dsimp only at h
            obtain ⟨hEuc, hEucN, hEids, hEpc, hEpi, row, hErow, hErid⟩ :=
              ensureCourse_facts db n c cr2 d dbE hb hpc hpi hens
            have hpwE : dbE.uc.Pairwise pairDistinct := by rw [hEuc]; exact hpw
            obtain ⟨hUc, hUcN, hUpw, hUcount, hUfind, hUids⟩ :=
              upsertActive_facts dbE u d hpwE
            have hmain : ∃ dc, activeCount (upsertActive dbE u d) u dc = 1 ∧
                ∃ db2, enroll_in_course (upsertActive dbE u d) cat u cid cn cc cr =
                    some (false, db2) ∧ activeCount db2 u dc = 1 := by
              obtain ⟨n2, cr3, hres2⟩ :=
                resolve_stable cat db dbE cid cn cc cr n c cr2 d hpc hpi hres hens
              have hres2a : resolveArgs cat (upsertActive dbE u d).courses cid cn cc cr =
                  some (n2, c, cr3) := by rw [hUc]; exact hres2
              have hrowa : (upsertActive dbE u d).courses.find?
                  (fun r => r.code == c) = some row := by rw [hUc]; exact hErow
              obtain ⟨db2, hens2, hdb2uc, hdb2ucN⟩ :=
                ensure_again (upsertActive dbE u d) n2 c cr3 d row hrowa hErid
              obtain ⟨ra, hfa, hsa⟩ := hUfind
              refine ⟨d, hUcount, db2, ?_, ?_⟩
              · unfold enroll_in_course
                rw [hres2a]
                dsimp only
                rw [hens2]
                dsimp only
                rw [show db2.uc.find? (fun r => r.user_id == u && r.course_id == d) =
                    some ra from by rw [hdb2uc]; exact hfa]
                dsimp only
                rw [if_pos (by simp [hsa])]
              · unfold activeCount
                rw [hdb2uc]
                exact hUcount
            cases hfind : dbE.uc.find? (fun r => r.user_id == u && r.course_id == d) with
            | some r0 =>
                rw [hfind] at h
                dsimp only at h
                by_cases hst : (r0.status == "active") = true
                · rw [if_pos hst] at h
                  simp at h
                · rw [if_neg hst] at h
                  simp only [Option.some.injEq, Prod.mk.injEq] at h
                  obtain ⟨hb1, hdb1⟩ := h
                  subst hdb1
                  exact hmain
            | none =>
                rw [hfind] at h
                dsimp only at h
                simp only [Option.some.injEq, Prod.mk.injEq] at h
                obtain ⟨hb1, hdb1⟩ := h
                subst hdb1
                exact hmain

/-- C5 witness: on the empty main database with a one course catalogue, the
invariants hold, the first enrollment call returns success producing exactly
one active row, and the second identical call returns failure with the active
count still exactly 1. -/
theorem c5_enroll_witness :
    MainDb.wf sampleDb0 ∧
    (∃ dc, activeCount sampleDb1 1 dc = 1 ∧
      ∃ db2, enroll_in_course sampleDb1 sampleCat 1 (some 1) none none none =
          some (false, db2) ∧ activeCount db2 1 dc = 1) :=
  ⟨by unfold MainDb.wf; decide,
   (c5_enroll sampleDb0 sampleCat 1 (some 1) none none none
      (by unfold MainDb.wf; decide)).2 sampleDb1 (by decide)⟩

end StudentMS
